import Mathlib

/-!
# Session store (package `session`): memory and redis backed sessions and their managers

A shallow embedding of `src/session/session.go` and `src/session/sessionMgr.go`.

* A Go `map[string]T` is a list of entries (`GoMap`) with the three map operations the
  code uses: index with the comma-ok form, assignment, `delete`.
* The locks are not represented: every operation is one atomic step on explicit state.
* `time.Time` values are read by the code only through `Unix()`, so `lastUpdateTime` is the
  Unix second count; `time.Now()` is an argument of the operations that read the clock.
* `int64` arithmetic wraps (`toInt64`).
* The redis server and the one `redis.Pool` of the process are the explicit state `Redis`:
  the stored keys, the outcome of the coming dials and commands (transport faults) and the
  number of connections the pool has handed out. No code of the package closes a connection,
  so a handed out connection is never returned: with `Wait: true` a call of `pool.Get()`
  blocks for ever once `MaxActive` connections are out. `pool.Get()` on a nil pool panics.
* `encoding/json` is a `Codec` argument; `jsonCodec` is its behaviour on scalar values, with
  the JSON object itself (a map from member names to values) as wire data. Keys and strings
  are valid UTF-8 text.
* A call of a method that reaches the pool ends in an `Outcome`: it returns, panics or
  blocks for ever. The panics of `Init` are an `Except.error` carrying a `Panic`.
-/

set_option exponentiation.threshold 2048

namespace GoSession

/-! ## Go maps -/

/-- A Go `map[string]T`. -/
abbrev GoMap (T : Type) := List (String × T)

/-- The comma-ok index expression `v, ok := m[k]`. -/
def mapLookup {T : Type} : GoMap T → String → Option T
  | [], _ => none
  | (k', v) :: rest, k => if k' = k then some v else mapLookup rest k

/-- The assignment `m[k] = v`: overwrite the entry of `k`, or add one. -/
def mapAssign {T : Type} : GoMap T → String → T → GoMap T
  | [], k, v => [(k, v)]
  | (k', v') :: rest, k, v =>
    if k' = k then (k, v) :: rest else (k', v') :: mapAssign rest k v

/-- The builtin `delete(m, k)`. -/
def mapDelete {T : Type} : GoMap T → String → GoMap T
  | [], _ => []
  | (k', v) :: rest, k => if k' = k then mapDelete rest k else (k', v) :: mapDelete rest k

/-- The keys of a map. -/
def mapKeys {T : Type} (m : GoMap T) : List String := m.map Prod.fst

/-! ## Values of type `interface{}` and their JSON encoding -/

/-- The Go values used for attributes and options: the scalar kinds and a channel (a kind
`encoding/json` rejects). A `float64` is given by the whole number it holds. -/
inductive GoValue where
  | nil
  | bool (b : Bool)
  | int (n : Int)
  | int64 (n : Int)
  | float64 (n : Int)
  | str (s : String)
  | chan (c : Nat)
  deriving DecidableEq, Repr

/-- A JSON scalar; a number is a whole number. -/
inductive Json where
  | null
  | bool (b : Bool)
  | num (n : Int)
  | str (s : String)
  deriving DecidableEq, Repr

/-- The two directions of the bag encoding (`json.Marshal` / `json.Unmarshal` in the code),
over values `V` and wire data `W`. -/
structure Codec (V W : Type) where
  marshal : GoMap V → Except String W
  unmarshal : W → Except String (GoMap V)

/-- The least shift `e`, searched upwards from the given one, with `a / 2 ^ e < 2 ^ 53`. -/
def mantissaShift (a : Nat) : Nat → Nat → Nat
  | 0, e => e
  | fuel + 1, e => if a / 2 ^ e < 2 ^ 53 then e else mantissaShift a fuel (e + 1)

/-- The whole number held by the `float64` nearest to the whole number `n` (ties go to the
even mantissa): `n` itself below `2 ^ 53`, else `n` rounded to 53 significant bits. -/
def roundFloat64 (n : Int) : Int :=
  let a := n.natAbs
  if a < 2 ^ 53 then n
  else
    let e := mantissaShift a a 0
    let q := a / 2 ^ e
    let rest := a % 2 ^ e
    let half := 2 ^ (e - 1)
    let q1 := if half < rest ∨ (rest = half ∧ q % 2 = 1) then q + 1 else q
    n.sign * ((q1 * 2 ^ e : Nat) : Int)

/-- The magnitude from which a number no longer rounds to a finite `float64`. -/
def float64Limit : Nat := 2 ^ 1024 - 2 ^ 970

/-- What `json.Marshal` does with one value: every number kind becomes a JSON number, a
channel is refused. -/
def jsonEncodeValue : GoValue → Except String Json
  | .nil => .ok .null
  | .bool b => .ok (.bool b)
  | .int n => .ok (.num n)
  | .int64 n => .ok (.num n)
  | .float64 n => .ok (.num n)
  | .str s => .ok (.str s)
  | .chan _ => .error "json: unsupported type: chan int"

/-- What `json.Unmarshal` stores into an `interface{}`: a JSON number always becomes the
nearest `float64`, and is refused when it is out of the range of `float64`. -/
def jsonDecodeValue : Json → Except String GoValue
  | .null => .ok .nil
  | .bool b => .ok (.bool b)
  | .num n =>
    if n.natAbs < float64Limit then .ok (.float64 (roundFloat64 n))
    else .error ("json: cannot unmarshal number " ++ toString n ++
      " into Go value of type float64")
  | .str s => .ok (.str s)

/-- The function `json.Marshal` on a `map[string]interface{}`: the object with one member per
key, or the first error. -/
def jsonMarshal : GoMap GoValue → Except String (GoMap Json)
  | [] => .ok []
  | (k, v) :: rest =>
    match jsonEncodeValue v with
    | .error e => .error e
    | .ok j =>
      match jsonMarshal rest with
      | .error e => .error e
      | .ok js => .ok ((k, j) :: js)

/-- The function `json.Unmarshal` of an object into an empty `map[string]interface{}`. -/
def jsonUnmarshal : GoMap Json → Except String (GoMap GoValue)
  | [] => .ok []
  | (k, j) :: rest =>
    match jsonDecodeValue j with
    | .error e => .error e
    | .ok v =>
      match jsonUnmarshal rest with
      | .error e => .error e
      | .ok m => .ok ((k, v) :: m)

/-- The codec the code uses. -/
def jsonCodec : Codec GoValue (GoMap Json) :=
  { marshal := jsonMarshal, unmarshal := jsonUnmarshal }

/-! ## Panics and outcomes -/

/-- The run-time panics the code can raise. -/
inductive Panic where
  | indexOutOfRange (index length : Nat)
  | interfaceConversion (dynamicType wantedType : String)
  | nilDereference
  deriving DecidableEq, Repr

/-- The ways a call can end: it returns a result, it panics, or it blocks for ever. -/
inductive Outcome (α : Type) where
  | returns (a : α)
  | panics (p : Panic)
  | blocks

/-! ## The redis server and the pool -/

/-- The `redis.Pool` built by `redisSessionMgr.Init` (`Wait` is always true). -/
structure Pool where
  addr : String
  dbNum : Int
  maxActive : Int
  maxIdle : Int
  deriving DecidableEq, Repr

/-- A transport fault: the dial of a new connection fails, or the dial succeeds and the
command sent on the connection fails. -/
inductive Fault where
  | dial (e : String)
  | command (e : String)
  deriving DecidableEq, Repr

/-- The remote store as the process reaches it through its pool: `db` holds the value of
every key, `faults` the outcome of the coming calls of `pool.Get()` (`none` or an exhausted
list: the dial and the command succeed), `active` the number of connections the pool has
handed out and not got back. -/
structure Redis (W : Type) where
  db : GoMap W
  faults : List (Option Fault)
  active : Nat

/-- A connection handed out by `pool.Get()`: `err` is the error every command sent on it
returns (the dial error of an `errorConn`, or a transport error), `none` for a connection
whose command is executed. -/
structure Conn where
  err : Option String
  deriving DecidableEq, Repr

/-- The dial inside `pool.Get()`: a failed dial gives the slot back, any other connection
keeps its slot. -/
def Redis.dial {W : Type} (rd : Redis W) : Conn × Redis W :=
  match rd.faults with
  | some (.dial e) :: rest => (⟨some e⟩, { rd with faults := rest })
  | some (.command e) :: rest => (⟨some e⟩, { rd with faults := rest, active := rd.active + 1 })
  | none :: rest => (⟨none⟩, { rd with faults := rest, active := rd.active + 1 })
  | [] => (⟨none⟩, { rd with active := rd.active + 1 })

/-- The call `r.pool.Get()` with `Wait: true`: a nil pool panics; with a positive `MaxActive`
and that many connections out it waits for a connection to come back, which never happens;
otherwise it dials. -/
def poolGet {W : Type} (pool : Option Pool) (rd : Redis W) : Outcome (Conn × Redis W) :=
  match pool with
  | none => .panics .nilDereference
  | some p =>
    if 0 < p.maxActive ∧ p.maxActive ≤ (rd.active : Int) then .blocks
    else .returns rd.dial

/-- Command `connect.Do("SET", key, data)`: the error of the call and the store afterwards. -/
def Conn.SET {W : Type} (connect : Conn) (rd : Redis W) (key : String) (data : W) :
    Option String × Redis W :=
  match connect.err with
  | some e => (some e, rd)
  | none => (none, { rd with db := mapAssign rd.db key data })

/-- Command `redis.Bytes(connect.Do("GET", key))`; a missing key is the nil reply, which
`redis.Bytes` turns into `ErrNil`. -/
def Conn.GET {W : Type} (connect : Conn) (rd : Redis W) (key : String) : Except String W :=
  match connect.err with
  | some e => .error e
  | none =>
    match mapLookup rd.db key with
    | some data => .ok data
    | none => .error "redigo: nil returned"

/-- Command `Do("DEL", key)`. -/
def Conn.DEL {W : Type} (connect : Conn) (rd : Redis W) (key : String) :
    Option String × Redis W :=
  match connect.err with
  | some e => (some e, rd)
  | none => (none, { rd with db := mapDelete rd.db key })

/-! ## Sessions (`session.go`) -/

/-- The struct `memorySession` (without its lock). -/
structure memorySession (V : Type) where
  sessionId : String
  attributes : GoMap V
  lastUpdateTime : Int

/-- The constructor `NewMemorySession`; `now` is `time.Now()`. -/
def NewMemorySession {V : Type} (sessionId : String) (now : Int) : memorySession V :=
  { sessionId := sessionId, attributes := [], lastUpdateTime := now }

/-- The method `memorySession.Set`: the returned error and the session afterwards. -/
def memorySession.Set {V : Type} (m : memorySession V) (key : String) (value : V) :
    Option String × memorySession V :=
  (none, { m with attributes := mapAssign m.attributes key value })

/-- The method `memorySession.Get`: the pair `(value, err)` (`none` is `nil`) and the session
afterwards. -/
def memorySession.Get {V : Type} (m : memorySession V) (key : String) :
    (Option V × Option String) × memorySession V :=
  match mapLookup m.attributes key with
  | none => ((none, some (key ++ " attr not found")), m)
  | some v => ((some v, none), m)

/-- The struct `redisSession` (without its lock). -/
structure redisSession (V : Type) where
  sessionId : String
  attributes : GoMap V
  pool : Option Pool
  lastUpdateTime : Int

/-- The constructor `NewRedisSession`. -/
def NewRedisSession {V : Type} (sessionId : String) (pool : Option Pool) (now : Int) :
    redisSession V :=
  { sessionId := sessionId, attributes := [], lastUpdateTime := now, pool := pool }

/-- The method `redisSession.Set`: write the key locally, take a connection, marshal the
whole bag, store it under the session id. Returns the error, the session and the remote store
afterwards. -/
def redisSession.Set {V W : Type} (c : Codec V W) (r : redisSession V) (rd : Redis W)
    (key : String) (value : V) : Outcome (Option String × redisSession V × Redis W) :=
  let r1 := { r with attributes := mapAssign r.attributes key value }
  match poolGet r1.pool rd with
  | .panics p => .panics p
  | .blocks => .blocks
  | .returns (connect, rd1) =>
    match c.marshal r1.attributes with
    | .error err => .returns (some err, r1, rd1)
    | .ok data =>
      match connect.SET rd1 r1.sessionId data with
      | (some err, rd2) => .returns (some err, r1, rd2)
      | (none, rd2) => .returns (none, r1, rd2)

/-- The method `redisSession.Get`: a local hit answers at once; a miss takes a connection,
fetches the bag stored under the session id, replaces the local bag by it and looks the key up
there. -/
def redisSession.Get {V W : Type} (c : Codec V W) (r : redisSession V) (rd : Redis W)
    (key : String) : Outcome ((Option V × Option String) × redisSession V × Redis W) :=
  match mapLookup r.attributes key with
  | some v => .returns ((some v, none), r, rd)
  | none =>
    match poolGet r.pool rd with
    | .panics p => .panics p
    | .blocks => .blocks
    | .returns (connect, rd1) =>
      match connect.GET rd1 r.sessionId with
      | .error err => .returns ((none, some err), r, rd1)
      | .ok data =>
        match c.unmarshal data with
        | .error err => .returns ((none, some err), r, rd1)
        | .ok tmp =>
          let r1 := { r with attributes := tmp }
          match mapLookup tmp key with
          | none => .returns ((none, some (key ++ " attr not found")), r1, rd1)
          | some value => .returns ((some value, none), r1, rd1)

/-- The method `redisSession.Del`: take a connection and send one `DEL` of the given key. -/
def redisSession.Del {V W : Type} (r : redisSession V) (rd : Redis W) (key : String) :
    Outcome (Option String × Redis W) :=
  match poolGet r.pool rd with
  | .panics p => .panics p
  | .blocks => .blocks
  | .returns (connect, rd1) => .returns (connect.DEL rd1 key)

/-- The interface `session` with its two implementations, for the type assertions of the
managers. -/
inductive session (V : Type) where
  | memory (m : memorySession V)
  | redis (r : redisSession V)

/-! ## Options and 64-bit integers -/

/-- The name of the dynamic type of a value. -/
def GoValue.typeName : GoValue → String
  | .nil => "nil"
  | .bool _ => "bool"
  | .int _ => "int"
  | .int64 _ => "int64"
  | .float64 _ => "float64"
  | .str _ => "string"
  | .chan _ => "chan int"

/-- The index expression `options[i]` on the variadic slice. -/
def optionAt (options : List GoValue) (i : Nat) : Except Panic GoValue :=
  match options.get? i with
  | some v => .ok v
  | none => .error (.indexOutOfRange i options.length)

/-- The type assertion `x.(int)`. -/
def assertInt : GoValue → Except Panic Int
  | .int n => .ok n
  | v => .error (.interfaceConversion v.typeName "int")

/-- The type assertion `s.(*memorySession)`. -/
def session.asMemorySession {V : Type} : session V → Except Panic (memorySession V)
  | .memory m => .ok m
  | .redis _ => .error (.interfaceConversion "*session.redisSession" "*session.memorySession")

/-- The type assertion `s.(*redisSession)`. -/
def session.asRedisSession {V : Type} : session V → Except Panic (redisSession V)
  | .redis r => .ok r
  | .memory _ => .error (.interfaceConversion "*session.memorySession" "*session.redisSession")

/-- The value of an `int64` expression whose mathematical value is `x`: two's complement
wrap-around. -/
def toInt64 (x : Int) : Int := (x + 2 ^ 63) % 2 ^ 64 - 2 ^ 63

/-! ## The memory manager (`sessionMgr.go`) -/

/-- The struct `memorySessionMgr` (without its lock). Its collection holds memory sessions
only, `CreateSession` being the one place that adds an entry. -/
structure memorySessionMgr (V : Type) where
  sessionMap : GoMap (memorySession V)
  expire : Int

/-- The constructor `NewmemorySessionMgr`. -/
def NewmemorySessionMgr {V : Type} : memorySessionMgr V :=
  { sessionMap := [], expire := 0 }

/-- The method `memorySessionMgr.Init` (the sweep it starts runs on its own). The conversion
`int64(expire)` keeps the value of an `int`. -/
def memorySessionMgr.Init {V : Type} (m : memorySessionMgr V) (_addr : String)
    (options : List GoValue) : Except Panic (memorySessionMgr V) :=
  if options.length > 0 then
    match optionAt options 0 with
    | .error p => .error p
    | .ok o =>
      match assertInt o with
      | .error p => .error p
      | .ok expire => .ok { m with expire := expire }
  else .ok m

/-- The method `memorySessionMgr.CreateSession`: the pair `(session, err)` and the manager
afterwards. -/
def memorySessionMgr.CreateSession {V : Type} (m : memorySessionMgr V) (now : Int)
    (sessionId : String) : (memorySession V × Option String) × memorySessionMgr V :=
  let msession := NewMemorySession sessionId now
  ((msession, none), { m with sessionMap := mapAssign m.sessionMap sessionId msession })

/-- The method `memorySessionMgr.GetSession`: the pair `(session, err)`. -/
def memorySessionMgr.GetSession {V : Type} (m : memorySessionMgr V) (sessionId : String) :
    Option (memorySession V) × Option String :=
  match mapLookup m.sessionMap sessionId with
  | none => (none, some "session is not create")
  | some s => (some s, none)

/-- The method `memorySessionMgr.DelSession`: the error and the manager afterwards. -/
def memorySessionMgr.DelSession {V : Type} (m : memorySessionMgr V) (sessionId : String) :
    Option String × memorySessionMgr V :=
  (none, { m with sessionMap := mapDelete m.sessionMap sessionId })

/-- The `for ... range m.sessionMap` loop of `TimeOutSession` over the keys still to visit.
An entry deleted before the loop reaches it is not produced. -/
def memorySessionMgr.sweepLoop {V : Type} (now : Int) :
    List String → memorySessionMgr V → memorySessionMgr V
  | [], m => m
  | k :: rest, m =>
    match mapLookup m.sessionMap k with
    | none => memorySessionMgr.sweepLoop now rest m
    | some v =>
      let t := toInt64 (v.lastUpdateTime + m.expire)
      if t < now then memorySessionMgr.sweepLoop now rest (m.DelSession v.sessionId).2
      else memorySessionMgr.sweepLoop now rest m

/-- One execution of the body of `memorySessionMgr.TimeOutSession`, up to the call of itself,
with the clock at `now`. -/
def memorySessionMgr.TimeOutSessionBody {V : Type} (m : memorySessionMgr V) (now : Int) :
    memorySessionMgr V :=
  if m.sessionMap.length < 1 then m
  else memorySessionMgr.sweepLoop now (mapKeys m.sessionMap) m

/-- The method `memorySessionMgr.TimeOutSession` unrolled over the clock readings of its
successive cycles. -/
def memorySessionMgr.TimeOutSession {V : Type} :
    List Int → memorySessionMgr V → memorySessionMgr V
  | [], m => m
  | now :: clocks, m => memorySessionMgr.TimeOutSession clocks (m.TimeOutSessionBody now)

/-- The method `memorySessionMgr.ReSetLastUpdateTime`; the assignment goes through the pointer
held by the collection. -/
def memorySessionMgr.ReSetLastUpdateTime {V : Type} (m : memorySessionMgr V) (now : Int)
    (sessionId : String) : Except Panic (memorySessionMgr V) :=
  match mapLookup m.sessionMap sessionId with
  | some s =>
    match (session.memory s).asMemorySession with
    | .error p => .error p
    | .ok ms =>
      .ok { m with sessionMap :=
              mapAssign m.sessionMap sessionId { ms with lastUpdateTime := now } }
  | none => .ok m

/-! ## The redis manager -/

/-- The struct `redisSessionMgr` (without its lock). Its collection holds redis sessions
only. -/
structure redisSessionMgr (V : Type) where
  sessionMap : GoMap (redisSession V)
  pool : Option Pool
  expire : Int

/-- The constructor `NewRedisSessionMgr`. -/
def NewRedisSessionMgr {V : Type} : redisSessionMgr V :=
  { sessionMap := [], pool := none, expire := 0 }

/-- The method `redisSessionMgr.Init` (the sweep it starts runs on its own). -/
def redisSessionMgr.Init {V : Type} (r : redisSessionMgr V) (addr : String)
    (options : List GoValue) : Except Panic (redisSessionMgr V) :=
  match (optionAt options 0).bind assertInt with
  | .error p => .error p
  | .ok expire =>
    match (optionAt options 2).bind assertInt with
    | .error p => .error p
    | .ok dbNum =>
      match (optionAt options 3).bind assertInt with
      | .error p => .error p
      | .ok maxActive =>
        match (optionAt options 4).bind assertInt with
        | .error p => .error p
        | .ok maxIdle =>
          let pool : Pool :=
            { addr := addr, dbNum := dbNum, maxActive := maxActive, maxIdle := maxIdle }
          .ok { r with expire := expire, pool := some pool }

/-- The method `redisSessionMgr.CreateSession`. -/
def redisSessionMgr.CreateSession {V : Type} (r : redisSessionMgr V) (now : Int)
    (sessionId : String) : (redisSession V × Option String) × redisSessionMgr V :=
  let rsession := NewRedisSession sessionId r.pool now
  ((rsession, none), { r with sessionMap := mapAssign r.sessionMap sessionId rsession })

/-- The method `redisSessionMgr.GetSession`. -/
def redisSessionMgr.GetSession {V : Type} (r : redisSessionMgr V) (sessionId : String) :
    Option (redisSession V) × Option String :=
  match mapLookup r.sessionMap sessionId with
  | none => (none, some "session is not create")
  | some s => (some s, none)

/-- The method `redisSessionMgr.DelSession`: for a present id one remote `DEL` whose error is
dropped, then the local delete. Returns the error, the manager and the remote store. -/
def redisSessionMgr.DelSession {V W : Type} (r : redisSessionMgr V) (rd : Redis W)
    (sessionId : String) : Outcome (Option String × redisSessionMgr V × Redis W) :=
  match mapLookup r.sessionMap sessionId with
  | some s =>
    match s.Del rd sessionId with
    | .panics p => .panics p
    | .blocks => .blocks
    | .returns res =>
      .returns (none, { r with sessionMap := mapDelete r.sessionMap sessionId }, res.2)
  | none => .returns (none, r, rd)

/-- The `for ... range r.sessionMap` loop of `redisSessionMgr.TimeOutSession`. -/
def redisSessionMgr.sweepLoop {V W : Type} (now : Int) :
    List String → redisSessionMgr V → Redis W → Outcome (redisSessionMgr V × Redis W)
  | [], r, rd => .returns (r, rd)
  | k :: rest, r, rd =>
    match mapLookup r.sessionMap k with
    | none => redisSessionMgr.sweepLoop now rest r rd
    | some v =>
      let t := toInt64 (v.lastUpdateTime + r.expire)
      if t < now then
        match r.DelSession rd v.sessionId with
        | .panics p => .panics p
        | .blocks => .blocks
        | .returns res => redisSessionMgr.sweepLoop now rest res.2.1 res.2.2
      else redisSessionMgr.sweepLoop now rest r rd

/-- One execution of the body of `redisSessionMgr.TimeOutSession`, up to the call of itself;
`now` is the clock after the sleep. -/
def redisSessionMgr.TimeOutSessionBody {V W : Type} (r : redisSessionMgr V) (rd : Redis W)
    (now : Int) : Outcome (redisSessionMgr V × Redis W) :=
  if r.sessionMap.length < 1 then .returns (r, rd)
  else redisSessionMgr.sweepLoop now (mapKeys r.sessionMap) r rd

/-- The method `redisSessionMgr.TimeOutSession` unrolled over the clock readings of its
successive cycles. -/
def redisSessionMgr.TimeOutSession {V W : Type} :
    List Int → redisSessionMgr V → Redis W → Outcome (redisSessionMgr V × Redis W)
  | [], r, rd => .returns (r, rd)
  | now :: clocks, r, rd =>
    match r.TimeOutSessionBody rd now with
    | .panics p => .panics p
    | .blocks => .blocks
    | .returns res => redisSessionMgr.TimeOutSession clocks res.1 res.2

/-- The sessions of the collection a sweep at `now` finds expired, counted over the given
keys: one connection is taken for each. -/
def redisSessionMgr.expiredCount {V : Type} (r : redisSessionMgr V) (now : Int) :
    List String → Nat
  | [] => 0
  | k :: rest =>
    (match mapLookup r.sessionMap k with
      | some v => if toInt64 (v.lastUpdateTime + r.expire) < now then 1 else 0
      | none => 0) + redisSessionMgr.expiredCount r now rest

/-- The method `redisSessionMgr.ReSetLastUpdateTime`: the entry, a `*redisSession`, is
asserted to be a `*memorySession`. -/
def redisSessionMgr.ReSetLastUpdateTime {V : Type} (r : redisSessionMgr V) (now : Int)
    (sessionId : String) : Except Panic (redisSessionMgr V) :=
  match mapLookup r.sessionMap sessionId with
  | some s =>
    match (session.redis s).asMemorySession with
    | .error p => .error p
    | .ok _ =>
      .ok { r with sessionMap :=
              mapAssign r.sessionMap sessionId { s with lastUpdateTime := now } }
  | none => .ok r

/-! ## The package level `Init` -/

/-- The interface `sessionMgr` with its two implementations. -/
inductive sessionMgr (V : Type) where
  | memory (m : memorySessionMgr V)
  | redis (r : redisSessionMgr V)

/-- The constant `SESSION_REDIS`. -/
def SESSION_REDIS : Int := 0

/-- The constant `SESSION_MEMORY`. -/
def SESSION_MEMORY : Int := 1

/-- The expiration time of a manager. -/
def sessionMgr.expire {V : Type} : sessionMgr V → Int
  | .memory m => m.expire
  | .redis r => r.expire

/-- The function `Init`: `SuperSession` is the package variable before the call (`none` is
the nil interface), the result its value after the call. -/
def Init {V : Type} (SuperSession : Option (sessionMgr V)) (sessionType : Int)
    (addr : String) (options : List GoValue) : Except Panic (sessionMgr V) :=
  let SuperSession1 : Option (sessionMgr V) :=
    if sessionType = SESSION_MEMORY then some (.memory NewmemorySessionMgr)
    else if sessionType = SESSION_REDIS then some (.redis NewRedisSessionMgr)
    else SuperSession
  match SuperSession1 with
  | none => .error .nilDereference
  | some (.memory m) =>
    match m.Init addr options with
    | .error p => .error p
    | .ok m1 => .ok (.memory m1)
  | some (.redis r) =>
    match r.Init addr options with
    | .error p => .error p
    | .ok r1 => .ok (.redis r1)

/-! ## The JSON round trip and the inputs of the examples -/

/-- The value `json.Unmarshal` gives back for a value `json.Marshal` accepted. -/
def jsonRoundTrip (v : GoValue) : GoValue :=
  match jsonEncodeValue v with
  | .ok j =>
    match jsonDecodeValue j with
    | .ok v2 => v2
    | .error _ => v
  | .error _ => v

/-- The pool of the demonstration program `main.go`. -/
def examplePool : Pool :=
  { addr := "127.0.0.1:6379", dbNum := 0, maxActive := 50, maxIdle := 15 }

/-- A pool that hands out one connection at most. -/
def smallPool : Pool :=
  { addr := "127.0.0.1:6379", dbNum := 0, maxActive := 1, maxIdle := 1 }

/-- An empty redis server that answers every command, no connection handed out yet. -/
def emptyRedis : Redis (GoMap Json) := { db := [], faults := [], active := 0 }

/-- An empty redis server that refuses the next connection. -/
def downRedis : Redis (GoMap Json) :=
  { db := [],
    faults := [some (.dial "connect redis failed , err : dial tcp 127.0.0.1:6379: refused")],
    active := 0 }

/-- A new redis session "s2". -/
def sessionS2 : redisSession GoValue := NewRedisSession "s2" (some examplePool) 1700000000

/-- The session "s2" after `Set("a", "1")`. -/
def sessionS2a : redisSession GoValue :=
  { sessionId := "s2", attributes := [("a", .str "1")], pool := some examplePool,
    lastUpdateTime := 1700000000 }

/-- The store after `Set("a", "1")` on "s2": one connection is out. -/
def redisS2a : Redis (GoMap Json) :=
  { db := [("s2", [("a", Json.str "1")])], faults := [], active := 1 }

/-- The session "s2" after `Set("a", "1")` and `Set("b", "2")`. -/
def sessionS2b : redisSession GoValue :=
  { sessionId := "s2", attributes := [("a", .str "1"), ("b", .str "2")],
    pool := some examplePool, lastUpdateTime := 1700000000 }

/-- The store after `Set("a", "1")` and `Set("b", "2")` on "s2". -/
def redisS2b : Redis (GoMap Json) :=
  { db := [("s2", [("a", Json.str "1"), ("b", Json.str "2")])], faults := [], active := 2 }

/-- A redis session "s1" on the pool of one connection. -/
def sessionSmallPool : redisSession GoValue :=
  NewRedisSession "s1" (some smallPool) 1700000000

/-- The store after `Set("a", "1")` on the session "s1" of the pool of one connection: that
connection is out. -/
def redisSmallBusy : Redis (GoMap Json) :=
  { db := [("s1", [("a", Json.str "1")])], faults := [], active := 1 }

/-- An empty redis server reached through a pool whose one connection is out. -/
def busyRedis : Redis (GoMap Json) := { db := [], faults := [], active := 1 }

/-- A memory manager configured with the largest `int64` as expiration time, after
`CreateSession("s1")` at time 1700000000. -/
def overflowMgr : memorySessionMgr GoValue :=
  (({ sessionMap := [], expire := 9223372036854775807 } :
    memorySessionMgr GoValue).CreateSession 1700000000 "s1").2

/-- A memory manager with expiration time 10 holding an old and a recent session. -/
def sweepMemoryMgr : memorySessionMgr GoValue :=
  { sessionMap :=
      [("old", { sessionId := "old", attributes := [], lastUpdateTime := 1699999989 }),
       ("new", { sessionId := "new", attributes := [], lastUpdateTime := 1700000000 })],
    expire := 10 }

/-- A redis manager with expiration time 10 holding an old and a recent session. -/
def sweepRedisMgr : redisSessionMgr GoValue :=
  { sessionMap :=
      [("old", { sessionId := "old", attributes := [], pool := some examplePool,
                 lastUpdateTime := 1699999989 }),
       ("new", { sessionId := "new", attributes := [], pool := some examplePool,
                 lastUpdateTime := 1700000000 })],
    pool := some examplePool, expire := 10 }

/-- A memory session holding one attribute. -/
def memoryS1 : memorySession GoValue :=
  { sessionId := "s1", attributes := [("username", .str "zhangsan")],
    lastUpdateTime := 1700000000 }

/-- The redis manager after `Init` with `MaxActive` 1 and `CreateSession("s1")`. -/
def smallPoolMgr : redisSessionMgr GoValue :=
  (({ sessionMap := [], pool := some smallPool, expire := 10 } :
    redisSessionMgr GoValue).CreateSession 1700000000 "s1").2

/-- A redis manager that was never initialised, after `CreateSession("s1")`. -/
def noPoolMgr : redisSessionMgr GoValue :=
  ((NewRedisSessionMgr : redisSessionMgr GoValue).CreateSession 1700000000 "s1").2

/-- A redis manager on the pool of one connection holding two expired sessions. -/
def twoExpiredMgr : redisSessionMgr GoValue :=
  { sessionMap :=
      [("a", { sessionId := "a", attributes := [], pool := some smallPool,
               lastUpdateTime := 1699999000 }),
       ("b", { sessionId := "b", attributes := [], pool := some smallPool,
               lastUpdateTime := 1699999000 })],
    pool := some smallPool, expire := 10 }

/-! ## Map lemmas -/

theorem mapLookup_assign_same {T : Type} (m : GoMap T) (k : String) (v : T) :
    mapLookup (mapAssign m k v) k = some v := by
  induction m with
  | nil => simp [mapAssign, mapLookup]
  | cons e rest ih =>
    obtain ⟨k', v'⟩ := e
    by_cases h : k' = k
    · simp [mapAssign, mapLookup, h]
    · simp [mapAssign, mapLookup, h, ih]

theorem mapLookup_assign_other {T : Type} (m : GoMap T) (k k2 : String) (v : T)
    (hne : k2 ≠ k) : mapLookup (mapAssign m k v) k2 = mapLookup m k2 := by
  have hne2 : ¬ k = k2 := fun h => hne h.symm
  induction m with
  | nil => simp [mapAssign, mapLookup, hne2]
  | cons e rest ih =>
    obtain ⟨k', v'⟩ := e
    by_cases h : k' = k
    · subst h
      simp [mapAssign, mapLookup, hne2]
    · by_cases h3 : k' = k2
      · subst h3
        simp [mapAssign, mapLookup, h]
      · simp [mapAssign, mapLookup, h, h3, ih]

theorem mapLookup_delete_same {T : Type} (m : GoMap T) (k : String) :
    mapLookup (mapDelete m k) k = none := by
  induction m with
  | nil => simp [mapDelete, mapLookup]
  | cons e rest ih =>
    obtain ⟨k', v'⟩ := e
    by_cases h : k' = k
    · simp [mapDelete, h, ih]
    · simp [mapDelete, h, mapLookup, ih]

theorem mapLookup_delete_other {T : Type} (m : GoMap T) (k k2 : String) (hne : k2 ≠ k) :
    mapLookup (mapDelete m k) k2 = mapLookup m k2 := by
  have hne2 : ¬ k = k2 := fun h => hne h.symm
  induction m with
  | nil => simp [mapDelete, mapLookup]
  | cons e rest ih =>
    obtain ⟨k', v'⟩ := e
    by_cases h : k' = k
    · subst h
      simp [mapDelete, mapLookup, hne2, ih]
    · by_cases h3 : k' = k2
      · subst h3
        simp [mapDelete, h, mapLookup]
      · simp [mapDelete, h, mapLookup, h3, ih]

theorem mapDelete_absent {T : Type} (m : GoMap T) (k : String)
    (h : mapLookup m k = none) : mapDelete m k = m := by
  induction m with
  | nil => simp [mapDelete]
  | cons e rest ih =>
    obtain ⟨k', v'⟩ := e
    by_cases hk : k' = k
    · simp [mapLookup, hk] at h
    · simp [mapLookup, hk] at h
      simp [mapDelete, hk, ih h]

theorem mapLookup_mem_keys {T : Type} (m : GoMap T) (k : String) (v : T)
    (h : mapLookup m k = some v) : k ∈ mapKeys m := by
  induction m with
  | nil => simp [mapLookup] at h
  | cons e rest ih =>
    obtain ⟨k', v'⟩ := e
    by_cases hk : k' = k
    · simp [mapKeys, hk]
    · simp [mapLookup, hk] at h
      have := ih h
      simp only [mapKeys] at this
      simp [mapKeys, this]

theorem mapLookup_delete_some {T : Type} (m : GoMap T) (k k2 : String) (v : T)
    (h : mapLookup (mapDelete m k) k2 = some v) : k2 ≠ k ∧ mapLookup m k2 = some v := by
  by_cases hk : k2 = k
  · subst hk
    rw [mapLookup_delete_same] at h
    cases h
  · rw [mapLookup_delete_other _ _ _ hk] at h
    exact ⟨hk, h⟩

theorem mapLookup_mem {T : Type} (m : GoMap T) (k : String) (v : T)
    (h : mapLookup m k = some v) : (k, v) ∈ m := by
  induction m with
  | nil => simp [mapLookup] at h
  | cons e rest ih =>
    obtain ⟨k', v'⟩ := e
    by_cases hk : k' = k
    · simp [mapLookup, hk] at h
      simp [hk, h]
    · simp [mapLookup, hk] at h
      exact List.mem_cons_of_mem _ (ih h)

theorem mem_mapAssign {T : Type} (m : GoMap T) (k : String) (v : T) (e : String × T)
    (h : e ∈ mapAssign m k v) : e = (k, v) ∨ e ∈ m := by
  induction m with
  | nil =>
    simp [mapAssign] at h
    exact Or.inl h
  | cons e2 rest ih =>
    obtain ⟨k', v'⟩ := e2
    by_cases hk : k' = k
    · simp [mapAssign, hk] at h
      rcases h with h | h
      · exact Or.inl h
      · exact Or.inr (List.mem_cons_of_mem _ h)
    · simp [mapAssign, hk] at h
      rcases h with h | h
      · exact Or.inr (by simp [h])
      · rcases ih h with h2 | h2
        · exact Or.inl h2
        · exact Or.inr (List.mem_cons_of_mem _ h2)

theorem mem_mapDelete {T : Type} (m : GoMap T) (k : String) (e : String × T)
    (h : e ∈ mapDelete m k) : e ∈ m := by
  induction m with
  | nil => simp [mapDelete] at h
  | cons e2 rest ih =>
    obtain ⟨k', v'⟩ := e2
    by_cases hk : k' = k
    · simp [mapDelete, hk] at h
      exact List.mem_cons_of_mem _ (ih h)
    · simp [mapDelete, hk] at h
      rcases h with h | h
      · simp [h]
      · exact List.mem_cons_of_mem _ (ih h)

/-! ## Lemmas on the pool and on the redis session -/

theorem dial_facts {W : Type} (rd : Redis W) :
    rd.dial.2.db = rd.db ∧ rd.dial.2.active ≤ rd.active + 1 := by
  unfold Redis.dial
  split <;> simp

theorem poolGet_facts {W : Type} (pool : Option Pool) (rd rd0 : Redis W) (connect : Conn)
    (h : poolGet pool rd = .returns (connect, rd0)) :
    rd0.db = rd.db ∧ rd0.active ≤ rd.active + 1 ∧
    ∃ p, pool = some p ∧ ¬ (0 < p.maxActive ∧ p.maxActive ≤ (rd.active : Int)) := by
  unfold poolGet at h
  cases pool with
  | none => cases h
  | some p =>
    simp only at h
    by_cases hb : 0 < p.maxActive ∧ p.maxActive ≤ (rd.active : Int)
    · rw [if_pos hb] at h
      cases h
    · rw [if_neg hb] at h
      have hd := dial_facts rd
      rw [Outcome.returns.inj h] at hd
      exact ⟨hd.1, hd.2, p, rfl, hb⟩

theorem poolGet_free {W : Type} (p : Pool) (rd : Redis W)
    (h : ¬ (0 < p.maxActive ∧ p.maxActive ≤ (rd.active : Int))) :
    poolGet (some p) rd = .returns rd.dial := by
  unfold poolGet
  simp only
  rw [if_neg h]

theorem redis_Set_returns {V W : Type} (c : Codec V W) (r r1 : redisSession V)
    (rd rd1 : Redis W) (k : String) (v : V) (err : Option String)
    (h : r.Set c rd k v = .returns (err, r1, rd1)) :
    r1 = { r with attributes := mapAssign r.attributes k v } ∧
    ∃ connect rd0, poolGet r.pool rd = .returns (connect, rd0) ∧
      ((∃ e, c.marshal (mapAssign r.attributes k v) = .error e ∧ err = some e ∧ rd1 = rd0) ∨
       (∃ data e, c.marshal (mapAssign r.attributes k v) = .ok data ∧
          (connect.SET rd0 r.sessionId data).1 = some e ∧ err = some e ∧ rd1 = rd0) ∨
       (∃ data, c.marshal (mapAssign r.attributes k v) = .ok data ∧ connect.err = none ∧
          err = none ∧ rd1 = { rd0 with db := mapAssign rd0.db r.sessionId data })) := by
  unfold redisSession.Set at h
  simp only at h
  cases hp : poolGet r.pool rd with
  | panics p => rw [hp] at h; cases h
  | blocks => rw [hp] at h; cases h
  | returns res =>
    obtain ⟨connect, rd0⟩ := res
    rw [hp] at h
    simp only at h
    cases hm : c.marshal (mapAssign r.attributes k v) with
    | error e =>
      rw [hm] at h
      simp only [Outcome.returns.injEq, Prod.mk.injEq] at h
      obtain ⟨h1, h2, h3⟩ := h
      exact ⟨h2.symm, connect, rd0, rfl, Or.inl ⟨e, rfl, h1.symm, h3.symm⟩⟩
    | ok data =>
      rw [hm] at h
      simp only at h
      cases hc : connect.err with
      | some e =>
        simp only [Conn.SET, hc, Outcome.returns.injEq, Prod.mk.injEq] at h
        obtain ⟨h1, h2, h3⟩ := h
        exact ⟨h2.symm, connect, rd0, rfl,
          Or.inr (Or.inl ⟨data, e, rfl, by simp [Conn.SET, hc], h1.symm, h3.symm⟩)⟩
      | none =>
        simp only [Conn.SET, hc, Outcome.returns.injEq, Prod.mk.injEq] at h
        obtain ⟨h1, h2, h3⟩ := h
        exact ⟨h2.symm, connect, rd0, rfl, Or.inr (Or.inr ⟨data, rfl, hc, h1.symm, h3.symm⟩)⟩

theorem redis_Get_hit {V W : Type} (c : Codec V W) (r : redisSession V)
    (rd : Redis W) (k : String) (v : V) (h : mapLookup r.attributes k = some v) :
    r.Get c rd k = .returns ((some v, none), r, rd) := by
  unfold redisSession.Get
  rw [h]

theorem jsonRoundTrip_beyond :
    jsonRoundTrip (.int 9007199254740993) = .float64 9007199254740992 := by
  decide

/-- C1: on a memory session, and on a redis session whose Set returned no error, Get(k) right
after Set(k, v) returns exactly v with a nil error, whatever the bag held before (k present
with another value or not) and whatever the remote store does in between. -/
theorem C1_get_after_set {V W : Type} :
    (∀ (m : memorySession V) (k : String) (v : V),
      (m.Set k v).1 = none ∧ ((m.Set k v).2.Get k).1 = (some v, none)) ∧
    (∀ (c : Codec V W) (r r1 : redisSession V) (rd rd1 : Redis W) (k : String) (v : V),
      r.Set c rd k v = .returns (none, r1, rd1) →
      r1.Get c rd1 k = .returns ((some v, none), r1, rd1) ∧
      ∀ rd2 : Redis W, r1.Get c rd2 k = .returns ((some v, none), r1, rd2)) := by
  refine ⟨?_, ?_⟩
  · intro m k v
    simp [memorySession.Set, memorySession.Get, mapLookup_assign_same]
  · intro c r r1 rd rd1 k v h
    have hr1 := (redis_Set_returns c r r1 rd rd1 k v none h).1
    have hloc : mapLookup r1.attributes k = some v := by
      rw [hr1]
      exact mapLookup_assign_same _ _ _
    exact ⟨redis_Get_hit c r1 rd1 k v hloc, fun rd2 => redis_Get_hit c r1 rd2 k v hloc⟩

/-- C2: Get on a memory session fails exactly when the key is absent from the bag: an absent
key (any key of a new session in particular) gives a nil value and the error made of the key
followed by " attr not found", a present key gives its value and a nil error, and the session
is the same after Get. -/
theorem C2_memory_get {V : Type} (m : memorySession V) (k : String) :
    (mapLookup m.attributes k = none →
      (m.Get k).1 = (none, some (k ++ " attr not found"))) ∧
    (∀ v : V, mapLookup m.attributes k = some v → (m.Get k).1 = (some v, none)) ∧
    ((m.Get k).1.2 ≠ none ↔ mapLookup m.attributes k = none) ∧
    (m.Get k).2 = m ∧
    (∀ (id : String) (now : Int),
      ((NewMemorySession id now : memorySession V).Get k).1 =
        (none, some (k ++ " attr not found"))) := by
  refine ⟨?_, ?_, ?_, ?_, ?_⟩
  · intro h
    simp [memorySession.Get, h]
  · intro v h
    simp [memorySession.Get, h]
  · cases h : mapLookup m.attributes k <;> simp [memorySession.Get, h]
  · cases h : mapLookup m.attributes k <;> simp [memorySession.Get, h]
  · intro id now
    simp [memorySession.Get, NewMemorySession, mapLookup]

/-- Witness of C1: the redis session "s2" on a server that answers. -/
theorem C1_get_after_set_witness :
    sessionS2.Set jsonCodec emptyRedis "a" (.str "1") = .returns (none, sessionS2a, redisS2a) ∧
    sessionS2a.Get jsonCodec redisS2a "a" = .returns ((some (.str "1"), none), sessionS2a, redisS2a) :=
  ⟨rfl,
   (C1_get_after_set.2 jsonCodec sessionS2 sessionS2a emptyRedis redisS2a "a" (.str "1")
      rfl).1⟩

/-- Witness of C2: an absent and a present key of a memory session. -/
theorem C2_memory_get_witness :
    (mapLookup memoryS1.attributes "age" = none ∧
      (memoryS1.Get "age").1 = (none, some "age attr not found")) ∧
    (mapLookup memoryS1.attributes "username" = some (.str "zhangsan") ∧
      (memoryS1.Get "username").1 = (some (.str "zhangsan"), none)) :=
  ⟨⟨by decide, (C2_memory_get memoryS1 "age").1 (by decide)⟩,
   ⟨by decide, (C2_memory_get memoryS1 "username").2.1 _ (by decide)⟩⟩

/-! ## The redis session and the remote store -/

/-- C7: after a Set(k, v) on a redis session that returns no error, the remote store holds
under the session id the serialization of the whole local bag as it is after the write (k
bound to v, every other key as before), and every other key of the remote store (attribute
keys included) holds what it held before. -/
theorem C7_set_stores_whole_bag {V W : Type} (c : Codec V W) (r r1 : redisSession V)
    (rd rd1 : Redis W) (k : String) (v : V)
    (h : r.Set c rd k v = .returns (none, r1, rd1)) :
    r1.sessionId = r.sessionId ∧
    mapLookup r1.attributes k = some v ∧
    (∀ k2 : String, k2 ≠ k → mapLookup r1.attributes k2 = mapLookup r.attributes k2) ∧
    (∃ data : W, c.marshal r1.attributes = .ok data ∧
      mapLookup rd1.db r.sessionId = some data) ∧
    (∀ key : String, key ≠ r.sessionId → mapLookup rd1.db key = mapLookup rd.db key) := by
  obtain ⟨hr1, connect, rd0, hp, hcase⟩ := redis_Set_returns c r r1 rd rd1 k v none h
  have hdb0 := (poolGet_facts r.pool rd rd0 connect hp).1
  subst hr1
  refine ⟨rfl, mapLookup_assign_same _ _ _, fun k2 hne => mapLookup_assign_other _ _ _ _ hne,
    ?_, ?_⟩
  · rcases hcase with ⟨e, _, he, _⟩ | ⟨data, e, _, _, he, _⟩ | ⟨data, hd, _, _, hrd⟩
    · cases he
    · cases he
    · refine ⟨data, hd, ?_⟩
      rw [hrd]
      exact mapLookup_assign_same _ _ _
  · intro key hne
    rcases hcase with ⟨e, _, he, _⟩ | ⟨data, e, _, _, he, _⟩ | ⟨data, hd, _, _, hrd⟩
    · cases he
    · cases he
    · rw [hrd]
      simp only
      rw [mapLookup_assign_other _ _ _ _ hne, hdb0]

/-- Witness of C7: on the new session "s2", Set("a", "1") then Set("b", "2") leaves under "s2"
the object with the two members a = "1" and b = "2", which decodes to that bag. -/
theorem C7_set_stores_whole_bag_witness :
    sessionS2.Set jsonCodec emptyRedis "a" (.str "1") = .returns (none, sessionS2a, redisS2a) ∧
    sessionS2a.Set jsonCodec redisS2a "b" (.str "2") = .returns (none, sessionS2b, redisS2b) ∧
    mapLookup redisS2b.db "s2" = some [("a", Json.str "1"), ("b", Json.str "2")] ∧
    jsonCodec.unmarshal [("a", Json.str "1"), ("b", Json.str "2")]
      = .ok [("a", GoValue.str "1"), ("b", GoValue.str "2")] ∧
    ∃ data, jsonCodec.marshal sessionS2b.attributes = .ok data ∧
      mapLookup redisS2b.db sessionS2a.sessionId = some data :=
  ⟨rfl, rfl, by decide, rfl,
   (C7_set_stores_whole_bag jsonCodec sessionS2a sessionS2b redisS2a redisS2b "b" (.str "2")
      rfl).2.2.2.1⟩

theorem toInt64_of_inRange (x : Int) (h1 : -(2 ^ 63) ≤ x) (h2 : x < 2 ^ 63) :
    toInt64 x = x := by
  unfold toInt64
  omega

theorem memory_sweepLoop_spec {V : Type} (now : Int) (keys : List String) :
    ∀ m : memorySessionMgr V,
      (∀ k s, mapLookup m.sessionMap k = some s → s.sessionId = k) →
      (memorySessionMgr.sweepLoop now keys m).expire = m.expire ∧
      ∀ id : String, mapLookup (memorySessionMgr.sweepLoop now keys m).sessionMap id
        = (mapLookup m.sessionMap id).bind (fun s =>
            if id ∈ keys ∧ toInt64 (s.lastUpdateTime + m.expire) < now then none
            else some s) := by
  induction keys with
  | nil =>
    intro m _
    refine ⟨rfl, fun id => ?_⟩
    cases hid : mapLookup m.sessionMap id <;> simp [memorySessionMgr.sweepLoop, hid]
  | cons k rest ih =>
    intro m hkey
    unfold memorySessionMgr.sweepLoop
    cases h : mapLookup m.sessionMap k with
    | none =>
      simp only
      refine ⟨(ih m hkey).1, fun id => ?_⟩
      rw [(ih m hkey).2 id]
      cases hid : mapLookup m.sessionMap id with
      | none => rfl
      | some s =>
        have hne : id ≠ k := by
          intro heq
          subst heq
          rw [h] at hid
          cases hid
        simp [List.mem_cons, hne]
    | some v =>
      have hv : v.sessionId = k := hkey k v h
      simp only
      by_cases ht : toInt64 (v.lastUpdateTime + m.expire) < now
      · rw [if_pos ht]
        have hkey2 : ∀ k2 s, mapLookup (m.DelSession v.sessionId).2.sessionMap k2 = some s →
            s.sessionId = k2 := by
          intro k2 s hs
          exact hkey k2 s (mapLookup_delete_some _ _ _ _ hs).2
        refine ⟨(ih _ hkey2).1, fun id => ?_⟩
        rw [(ih _ hkey2).2 id, hv]
        by_cases hid : id = k
        · subst hid
          simp [memorySessionMgr.DelSession, mapLookup_delete_same, h, ht]
        · simp [memorySessionMgr.DelSession, mapLookup_delete_other _ _ _ hid,
            List.mem_cons, hid]
      · rw [if_neg ht]
        refine ⟨(ih m hkey).1, fun id => ?_⟩
        rw [(ih m hkey).2 id]
        by_cases hid : id = k
        · subst hid
          simp [h, ht]
        · simp [List.mem_cons, hid]

theorem memory_TimeOutSessionBody_spec {V : Type} (m : memorySessionMgr V)
    (now : Int) (hkey : ∀ k s, mapLookup m.sessionMap k = some s → s.sessionId = k) :
    (m.TimeOutSessionBody now).expire = m.expire ∧
    ∀ id : String, mapLookup (m.TimeOutSessionBody now).sessionMap id
      = (mapLookup m.sessionMap id).bind (fun s =>
          if toInt64 (s.lastUpdateTime + m.expire) < now then none else some s) := by
  unfold memorySessionMgr.TimeOutSessionBody
  by_cases hlen : m.sessionMap.length < 1
  · rw [if_pos hlen]
    refine ⟨rfl, fun id => ?_⟩
    have hnil : m.sessionMap = [] := by
      cases hm : m.sessionMap with
      | nil => rfl
      | cons e rest => simp [hm] at hlen
    simp [hnil, mapLookup]
  · rw [if_neg hlen]
    have hspec := memory_sweepLoop_spec now (mapKeys m.sessionMap) m hkey
    refine ⟨hspec.1, fun id => ?_⟩
    rw [hspec.2 id]
    cases hid : mapLookup m.sessionMap id with
    | none => rfl
    | some s => simp [mapLookup_mem_keys _ _ _ hid]

theorem memory_TimeOutSession_keeps {V : Type} (id : String) (s : memorySession V)
    (clocks : List Int) :
    ∀ m : memorySessionMgr V,
      (∀ k s2, mapLookup m.sessionMap k = some s2 → s2.sessionId = k) →
      mapLookup m.sessionMap id = some s →
      toInt64 (s.lastUpdateTime + m.expire) = s.lastUpdateTime + m.expire →
      (∀ t ∈ clocks, t < s.lastUpdateTime + m.expire) →
      mapLookup (memorySessionMgr.TimeOutSession clocks m).sessionMap id = some s := by
  induction clocks with
  | nil =>
    intro m _ h _ _
    exact h
  | cons now rest ih =>
    intro m hkey h hr hc
    unfold memorySessionMgr.TimeOutSession
    have hspec := memory_TimeOutSessionBody_spec m now hkey
    have hnow : ¬ s.lastUpdateTime + m.expire < now :=
      not_lt.mpr (le_of_lt (hc now (List.mem_cons_self _ _)))
    apply ih
    · intro k s2 hs2
      rw [hspec.2 k] at hs2
      cases hk : mapLookup m.sessionMap k with
      | none => simp [hk] at hs2
      | some s3 =>
        rw [hk] at hs2
        by_cases hx : toInt64 (s3.lastUpdateTime + m.expire) < now
        · simp [hx] at hs2
        · simp [hx] at hs2
          subst hs2
          exact hkey k s3 hk
    · rw [hspec.2 id, h]
      simp [hr, hnow]
    · rw [hspec.1]
      exact hr
    · intro t ht
      rw [hspec.1]
      exact hc t (List.mem_cons_of_mem _ ht)

theorem redis_DelSession_present {V W : Type} (r : redisSessionMgr V) (rd : Redis W)
    (id : String) (s : redisSession V) (p : Pool)
    (h : mapLookup r.sessionMap id = some s) (hp : s.pool = some p)
    (hfree : ¬ (0 < p.maxActive ∧ p.maxActive ≤ (rd.active : Int))) :
    ∃ rd1 : Redis W,
      r.DelSession rd id
        = .returns (none, { r with sessionMap := mapDelete r.sessionMap id }, rd1) ∧
      rd1.active ≤ rd.active + 1 := by
  unfold redisSessionMgr.DelSession
  rw [h]
  simp only [redisSession.Del, hp, poolGet_free p rd hfree]
  refine ⟨_, rfl, ?_⟩
  have hd := (dial_facts rd).2
  unfold Conn.DEL
  split <;> simpa using hd

theorem redis_DelSession_absent {V W : Type} (r : redisSessionMgr V) (rd : Redis W)
    (id : String) (h : mapLookup r.sessionMap id = none) :
    r.DelSession rd id = .returns (none, r, rd) := by
  unfold redisSessionMgr.DelSession
  rw [h]

theorem expiredCount_delete {V : Type} (r : redisSessionMgr V) (now : Int) (k : String)
    (keys : List String) :
    redisSessionMgr.expiredCount { r with sessionMap := mapDelete r.sessionMap k } now keys
      ≤ redisSessionMgr.expiredCount r now keys := by
  induction keys with
  | nil => simp [redisSessionMgr.expiredCount]
  | cons k2 rest ih =>
    unfold redisSessionMgr.expiredCount
    by_cases hk : k2 = k
    · subst hk
      simp only [mapLookup_delete_same]
      omega
    · simp only [mapLookup_delete_other _ _ _ hk]
      omega

theorem redis_sweepLoop_spec {V W : Type} (now : Int) (p : Pool) (keys : List String) :
    ∀ (r : redisSessionMgr V) (rd : Redis W),
      (∀ k s, mapLookup r.sessionMap k = some s → s.sessionId = k ∧ s.pool = some p) →
      (p.maxActive ≤ 0 ∨
        (rd.active : Int) + (redisSessionMgr.expiredCount r now keys : Nat) ≤ p.maxActive) →
      ∃ (r1 : redisSessionMgr V) (rd1 : Redis W),
        redisSessionMgr.sweepLoop now keys r rd = .returns (r1, rd1) ∧
        r1.expire = r.expire ∧
        ∀ id : String, mapLookup r1.sessionMap id
          = (mapLookup r.sessionMap id).bind (fun s =>
              if id ∈ keys ∧ toInt64 (s.lastUpdateTime + r.expire) < now then none
              else some s) := by
  induction keys with
  | nil =>
    intro r rd _ _
    refine ⟨r, rd, rfl, rfl, fun id => ?_⟩
    cases hid : mapLookup r.sessionMap id <;> simp
  | cons k rest ih =>
    intro r rd hinv hcap
    unfold redisSessionMgr.sweepLoop
    unfold redisSessionMgr.expiredCount at hcap
    cases h : mapLookup r.sessionMap k with
    | none =>
      simp only [h] at hcap ⊢
      obtain ⟨r1, rd1, hret, hexp, hlook⟩ := ih r rd hinv (by omega)
      refine ⟨r1, rd1, hret, hexp, fun id => ?_⟩
      rw [hlook id]
      cases hid : mapLookup r.sessionMap id with
      | none => rfl
      | some s =>
        have hne : id ≠ k := by
          intro heq
          subst heq
          rw [h] at hid
          cases hid
        simp [List.mem_cons, hne]
    | some v =>
      have hv : v.sessionId = k := (hinv k v h).1
      simp only [h] at hcap ⊢
      by_cases ht : toInt64 (v.lastUpdateTime + r.expire) < now
      · rw [if_pos ht] at hcap
        rw [if_pos ht, hv]
        have hfree : ¬ (0 < p.maxActive ∧ p.maxActive ≤ (rd.active : Int)) := by omega
        obtain ⟨rd0, hdel, hact⟩ := redis_DelSession_present r rd k v p h (hinv k v h).2 hfree
        rw [hdel]
        simp only
        have hinv2 : ∀ k2 s,
            mapLookup ({ r with sessionMap := mapDelete r.sessionMap k } :
              redisSessionMgr V).sessionMap k2 = some s →
            s.sessionId = k2 ∧ s.pool = some p := by
          intro k2 s hs
          exact hinv k2 s (mapLookup_delete_some _ _ _ _ hs).2
        have hmono := expiredCount_delete r now k rest
        obtain ⟨r1, rd1, hret, hexp, hlook⟩ :=
          ih { r with sessionMap := mapDelete r.sessionMap k } rd0 hinv2 (by omega)
        refine ⟨r1, rd1, hret, hexp, fun id => ?_⟩
        rw [hlook id]
        by_cases hid : id = k
        · subst hid
          simp [mapLookup_delete_same, h, ht]
        · simp [mapLookup_delete_other _ _ _ hid, List.mem_cons, hid]
      · rw [if_neg ht] at hcap
        rw [if_neg ht]
        obtain ⟨r1, rd1, hret, hexp, hlook⟩ := ih r rd hinv (by omega)
        refine ⟨r1, rd1, hret, hexp, fun id => ?_⟩
        rw [hlook id]
        by_cases hid : id = k
        · subst hid
          simp [h, ht]
        · simp [List.mem_cons, hid]

theorem redis_TimeOutSessionBody_spec {V W : Type} (r : redisSessionMgr V)
    (rd : Redis W) (now : Int) (p : Pool)
    (hinv : ∀ k s, mapLookup r.sessionMap k = some s → s.sessionId = k ∧ s.pool = some p)
    (hcap : p.maxActive ≤ 0 ∨
      (rd.active : Int) + (redisSessionMgr.expiredCount r now (mapKeys r.sessionMap) : Nat)
        ≤ p.maxActive) :
    ∃ (r1 : redisSessionMgr V) (rd1 : Redis W),
      r.TimeOutSessionBody rd now = .returns (r1, rd1) ∧
      r1.expire = r.expire ∧
      ∀ id : String, mapLookup r1.sessionMap id
        = (mapLookup r.sessionMap id).bind (fun s =>
            if toInt64 (s.lastUpdateTime + r.expire) < now then none else some s) := by
  unfold redisSessionMgr.TimeOutSessionBody
  by_cases hlen : r.sessionMap.length < 1
  · rw [if_pos hlen]
    refine ⟨r, rd, rfl, rfl, fun id => ?_⟩
    have hnil : r.sessionMap = [] := by
      cases hm : r.sessionMap with
      | nil => rfl
      | cons e rest => simp [hm] at hlen
    simp [hnil, mapLookup]
  · rw [if_neg hlen]
    obtain ⟨r1, rd1, hret, hexp, hlook⟩ :=
      redis_sweepLoop_spec now p (mapKeys r.sessionMap) r rd hinv hcap
    refine ⟨r1, rd1, hret, hexp, fun id => ?_⟩
    rw [hlook id]
    cases hid : mapLookup r.sessionMap id with
    | none => rfl
    | some s => simp [mapLookup_mem_keys _ _ _ hid]

theorem redis_TimeOutSession_keeps {V W : Type} (id : String) (s : redisSession V)
    (p : Pool) (hp : p.maxActive ≤ 0) (clocks : List Int) :
    ∀ (r : redisSessionMgr V) (rd : Redis W),
      (∀ k s2, mapLookup r.sessionMap k = some s2 → s2.sessionId = k ∧ s2.pool = some p) →
      mapLookup r.sessionMap id = some s →
      toInt64 (s.lastUpdateTime + r.expire) = s.lastUpdateTime + r.expire →
      (∀ t ∈ clocks, t < s.lastUpdateTime + r.expire) →
      ∃ (r1 : redisSessionMgr V) (rd1 : Redis W),
        redisSessionMgr.TimeOutSession clocks r rd = .returns (r1, rd1) ∧
        mapLookup r1.sessionMap id = some s := by
  induction clocks with
  | nil =>
    intro r rd _ h _ _
    exact ⟨r, rd, rfl, h⟩
  | cons now rest ih =>
    intro r rd hinv h hr hc
    unfold redisSessionMgr.TimeOutSession
    obtain ⟨r1, rd1, hret, hexp, hlook⟩ :=
      redis_TimeOutSessionBody_spec r rd now p hinv (Or.inl hp)
    rw [hret]
    simp only
    have hnow : ¬ s.lastUpdateTime + r.expire < now :=
      not_lt.mpr (le_of_lt (hc now (List.mem_cons_self _ _)))
    apply ih
    · intro k s2 hs2
      rw [hlook k] at hs2
      cases hk : mapLookup r.sessionMap k with
      | none => simp [hk] at hs2
      | some s3 =>
        rw [hk] at hs2
        by_cases hx : toInt64 (s3.lastUpdateTime + r.expire) < now
        · simp [hx] at hs2
        · simp [hx] at hs2
          subst hs2
          exact hinv k s3 hk
    · rw [hlook id, h]
      simp [hr, hnow]
    · rw [hexp]
      exact hr
    · intro t ht
      rw [hexp]
      exact hc t (List.mem_cons_of_mem _ ht)

/-! ## Every session is registered under its own id and shares the pool of its manager -/

theorem memory_ownId_preserved {V : Type} (m : memorySessionMgr V)
    (h : ∀ e ∈ m.sessionMap, e.2.sessionId = e.1) (now : Int) (id : String) :
    (∀ e ∈ (NewmemorySessionMgr : memorySessionMgr V).sessionMap, e.2.sessionId = e.1) ∧
    (∀ e ∈ (m.CreateSession now id).2.sessionMap, e.2.sessionId = e.1) ∧
    (∀ e ∈ (m.DelSession id).2.sessionMap, e.2.sessionId = e.1) := by
  refine ⟨?_, ?_, ?_⟩
  · intro e he
    simp [NewmemorySessionMgr] at he
  · intro e he
    rcases mem_mapAssign _ _ _ _ he with h2 | h2
    · subst h2
      rfl
    · exact h e h2
  · intro e he
    exact h e (mem_mapDelete _ _ _ he)

theorem redis_ownId_preserved {V W : Type} (r : redisSessionMgr V) (rd : Redis W)
    (h : ∀ e ∈ r.sessionMap, e.2.sessionId = e.1 ∧ e.2.pool = r.pool)
    (now : Int) (id : String) :
    (∀ e ∈ (NewRedisSessionMgr : redisSessionMgr V).sessionMap,
      e.2.sessionId = e.1 ∧ e.2.pool = (NewRedisSessionMgr : redisSessionMgr V).pool) ∧
    (∀ e ∈ (r.CreateSession now id).2.sessionMap,
      e.2.sessionId = e.1 ∧ e.2.pool = (r.CreateSession now id).2.pool) ∧
    (∀ res, r.DelSession rd id = .returns res →
      ∀ e ∈ res.2.1.sessionMap, e.2.sessionId = e.1 ∧ e.2.pool = res.2.1.pool) := by
  refine ⟨?_, ?_, ?_⟩
  · intro e he
    simp [NewRedisSessionMgr] at he
  · intro e he
    rcases mem_mapAssign _ _ _ _ he with h2 | h2
    · subst h2
      exact ⟨rfl, rfl⟩
    · exact h e h2
  · intro res hres e he
    unfold redisSessionMgr.DelSession at hres
    cases hl : mapLookup r.sessionMap id with
    | none =>
      rw [hl] at hres
      cases hres
      exact h e he
    | some s =>
      rw [hl] at hres
      simp only at hres
      cases hd : s.Del rd id with
      | panics q => rw [hd] at hres; cases hres
      | blocks => rw [hd] at hres; cases hres
      | returns x =>
        rw [hd] at hres
        cases hres
        exact h e (mem_mapDelete _ _ _ he)

/-! ## Lemmas on the options of `Init` -/

theorem optionInt_ok_iff (options : List GoValue) (i : Nat) (n : Int) :
    (optionAt options i).bind assertInt = .ok n ↔ options.get? i = some (.int n) := by
  unfold optionAt
  cases h : options.get? i with
  | none => simp [Except.bind]
  | some o => cases o <;> simp [Except.bind, assertInt]

theorem redis_Init_ok_iff {V : Type} (r r1 : redisSessionMgr V) (addr : String)
    (options : List GoValue) :
    r.Init addr options = .ok r1 ↔
      ∃ n0 n2 n3 n4 : Int, options.get? 0 = some (.int n0) ∧ options.get? 2 = some (.int n2) ∧
        options.get? 3 = some (.int n3) ∧ options.get? 4 = some (.int n4) ∧
        r1 = { r with expire := n0,
                      pool := some ⟨addr, n2, n3, n4⟩ } := by
  unfold redisSessionMgr.Init
  constructor
  · intro h
    cases h0 : (optionAt options 0).bind assertInt with
    | error p => simp [h0] at h
    | ok n0 =>
      cases h2 : (optionAt options 2).bind assertInt with
      | error p => simp [h0, h2] at h
      | ok n2 =>
        cases h3 : (optionAt options 3).bind assertInt with
        | error p => simp [h0, h2, h3] at h
        | ok n3 =>
          cases h4 : (optionAt options 4).bind assertInt with
          | error p => simp [h0, h2, h3, h4] at h
          | ok n4 =>
            simp [h0, h2, h3, h4] at h
            exact ⟨n0, n2, n3, n4, (optionInt_ok_iff _ _ _).1 h0, (optionInt_ok_iff _ _ _).1 h2,
              (optionInt_ok_iff _ _ _).1 h3, (optionInt_ok_iff _ _ _).1 h4, h.symm⟩
  · rintro ⟨n0, n2, n3, n4, h0, h2, h3, h4, hr⟩
    rw [(optionInt_ok_iff _ _ _).2 h0, (optionInt_ok_iff _ _ _).2 h2,
      (optionInt_ok_iff _ _ _).2 h3, (optionInt_ok_iff _ _ _).2 h4, hr]

theorem redisInit_panics_of_not_ok {V : Type} (ss : Option (sessionMgr V)) (addr : String)
    (options : List GoValue)
    (h : ∀ r1 : redisSessionMgr V,
      (NewRedisSessionMgr : redisSessionMgr V).Init addr options ≠ .ok r1) :
    ∃ p, Init ss SESSION_REDIS addr options = .error p := by
  unfold Init
  cases hr : (NewRedisSessionMgr : redisSessionMgr V).Init addr options with
  | error p => exact ⟨p, by simp [SESSION_REDIS, SESSION_MEMORY, hr]⟩
  | ok r1 => exact absurd hr (h r1)

/-! ## Managers: DelSession, CreateSession -/

/-- C3 as stated fails for the redis manager: DelSession of a present id first takes a
connection from the pool. After Init with MaxActive 1, CreateSession("s1") and one Set on that
session, the one connection is out and never returned, and DelSession("s1") blocks for ever;
on a manager that was never initialised (nil pool) DelSession("s1") panics. Neither returns a
nil error. -/
theorem C3_counterexample :
    (Init none SESSION_REDIS "127.0.0.1:6379" [.int 10, .str "", .int 0, .int 1, .int 1] :
        Except Panic (sessionMgr GoValue))
      = .ok (.redis { sessionMap := [], expire := 10, pool := some smallPool }) ∧
    smallPoolMgr.GetSession "s1" = (some sessionSmallPool, none) ∧
    sessionSmallPool.Set jsonCodec emptyRedis "a" (.str "1")
      = .returns (none, { sessionSmallPool with attributes := [("a", .str "1")] },
          redisSmallBusy) ∧
    smallPoolMgr.DelSession redisSmallBusy "s1" = .blocks ∧
    noPoolMgr.DelSession emptyRedis "s1" = .panics .nilDereference := by
  refine ⟨rfl, rfl, rfl, rfl, rfl⟩

/-- C3, amended: for the memory manager, every state and every id, DelSession(id) returns a
nil error, a GetSession(id) after it fails with "session is not create", GetSession of any
other id answers as before, and an absent id leaves the manager as it was. For the redis
manager the same holds for an absent id (nothing is sent, manager and store are unchanged),
and for a present id whenever the pool of its session is not nil and has a connection to hand
out (MaxActive is not positive, or fewer than MaxActive connections are out), whether or not
the remote delete then succeeds. -/
theorem C3_delSession {V W : Type} :
    (∀ (m : memorySessionMgr V) (id : String),
      (m.DelSession id).1 = none ∧
      (m.DelSession id).2.GetSession id = (none, some "session is not create") ∧
      (∀ id2 : String, id2 ≠ id → (m.DelSession id).2.GetSession id2 = m.GetSession id2) ∧
      (mapLookup m.sessionMap id = none → (m.DelSession id).2 = m)) ∧
    (∀ (r : redisSessionMgr V) (rd : Redis W) (id : String),
      (mapLookup r.sessionMap id = none →
        r.DelSession rd id = .returns (none, r, rd) ∧
        r.GetSession id = (none, some "session is not create")) ∧
      (∀ (s : redisSession V) (p : Pool), mapLookup r.sessionMap id = some s →
        s.pool = some p → ¬ (0 < p.maxActive ∧ p.maxActive ≤ (rd.active : Int)) →
        ∃ (r1 : redisSessionMgr V) (rd1 : Redis W),
          r.DelSession rd id = .returns (none, r1, rd1) ∧
          r1.GetSession id = (none, some "session is not create") ∧
          ∀ id2 : String, id2 ≠ id → r1.GetSession id2 = r.GetSession id2)) := by
  refine ⟨?_, ?_⟩
  · intro m id
    refine ⟨rfl, ?_, ?_, ?_⟩
    · simp [memorySessionMgr.DelSession, memorySessionMgr.GetSession, mapLookup_delete_same]
    · intro id2 hne
      simp [memorySessionMgr.DelSession, memorySessionMgr.GetSession,
        mapLookup_delete_other _ _ _ hne]
    · intro h
      simp [memorySessionMgr.DelSession, mapDelete_absent _ _ h]
  · intro r rd id
    refine ⟨?_, ?_⟩
    · intro h
      exact ⟨redis_DelSession_absent r rd id h, by simp [redisSessionMgr.GetSession, h]⟩
    · intro s p h hp hfree
      obtain ⟨rd1, hdel, _⟩ := redis_DelSession_present r rd id s p h hp hfree
      refine ⟨_, rd1, hdel, ?_, ?_⟩
      · simp [redisSessionMgr.GetSession, mapLookup_delete_same]
      · intro id2 hne
        simp [redisSessionMgr.GetSession, mapLookup_delete_other _ _ _ hne]

/-- Witness of C3: deleting "old" keeps the answer for "new", and deleting the unknown id
"ghost" changes nothing, on the memory manager and on the redis manager whose server refuses
the connection. -/
theorem C3_delSession_witness :
    ("new" ≠ "old" ∧
      (sweepMemoryMgr.DelSession "old").2.GetSession "new" = sweepMemoryMgr.GetSession "new") ∧
    (mapLookup sweepMemoryMgr.sessionMap "ghost" = none ∧
      (sweepMemoryMgr.DelSession "ghost").2 = sweepMemoryMgr) ∧
    (mapLookup sweepRedisMgr.sessionMap "ghost" = none ∧
      sweepRedisMgr.DelSession downRedis "ghost" = .returns (none, sweepRedisMgr, downRedis)) ∧
    (¬ (0 < examplePool.maxActive ∧ examplePool.maxActive ≤ (downRedis.active : Int)) ∧
      ∃ r1 rd1, sweepRedisMgr.DelSession downRedis "old" = .returns (none, r1, rd1) ∧
        r1.GetSession "old" = (none, some "session is not create") ∧
        ∀ id2 : String, id2 ≠ "old" → r1.GetSession id2 = sweepRedisMgr.GetSession id2) :=
  ⟨⟨by decide,
    ((@C3_delSession GoValue (GoMap Json)).1 sweepMemoryMgr "old").2.2.1 "new" (by decide)⟩,
   ⟨rfl, ((@C3_delSession GoValue (GoMap Json)).1 sweepMemoryMgr "ghost").2.2.2 rfl⟩,
   ⟨rfl, (((@C3_delSession GoValue (GoMap Json)).2 sweepRedisMgr downRedis "ghost").1 rfl).1⟩,
   ⟨by decide,
    ((@C3_delSession GoValue (GoMap Json)).2 sweepRedisMgr downRedis "old").2
      { sessionId := "old", attributes := [], pool := some examplePool,
        lastUpdateTime := 1699999989 } examplePool rfl rfl (by decide)⟩⟩

/-- C4: for both managers, every state and every id, CreateSession(id) returns a nil error and
a new session with an empty bag (carrying the id and the current time); GetSession(id)
afterwards returns exactly that session, whatever was registered under id before, and
GetSession of every other id answers as before. -/
theorem C4_createSession {V : Type} :
    (∀ (m : memorySessionMgr V) (now : Int) (id : String),
      (m.CreateSession now id).1.2 = none ∧
      (m.CreateSession now id).1.1.attributes = [] ∧
      (m.CreateSession now id).1.1.sessionId = id ∧
      (m.CreateSession now id).1.1.lastUpdateTime = now ∧
      (m.CreateSession now id).2.GetSession id = (some (m.CreateSession now id).1.1, none) ∧
      (∀ id2 : String, id2 ≠ id →
        (m.CreateSession now id).2.GetSession id2 = m.GetSession id2)) ∧
    (∀ (r : redisSessionMgr V) (now : Int) (id : String),
      (r.CreateSession now id).1.2 = none ∧
      (r.CreateSession now id).1.1.attributes = [] ∧
      (r.CreateSession now id).1.1.sessionId = id ∧
      (r.CreateSession now id).1.1.lastUpdateTime = now ∧
      (r.CreateSession now id).2.GetSession id = (some (r.CreateSession now id).1.1, none) ∧
      (∀ id2 : String, id2 ≠ id →
        (r.CreateSession now id).2.GetSession id2 = r.GetSession id2)) := by
  refine ⟨?_, ?_⟩
  · intro m now id
    refine ⟨rfl, rfl, rfl, rfl, ?_, ?_⟩
    · simp [memorySessionMgr.CreateSession, memorySessionMgr.GetSession,
        mapLookup_assign_same]
    · intro id2 hne
      simp [memorySessionMgr.CreateSession, memorySessionMgr.GetSession,
        mapLookup_assign_other _ _ _ _ hne]
  · intro r now id
    refine ⟨rfl, rfl, rfl, rfl, ?_, ?_⟩
    · simp [redisSessionMgr.CreateSession, redisSessionMgr.GetSession,
        mapLookup_assign_same]
    · intro id2 hne
      simp [redisSessionMgr.CreateSession, redisSessionMgr.GetSession,
        mapLookup_assign_other _ _ _ _ hne]

/-- Witness of C4: creating "old" again keeps the answer for "new" in both managers. -/
theorem C4_createSession_witness :
    ("new" ≠ "old" ∧
      (sweepMemoryMgr.CreateSession 1700000020 "old").2.GetSession "new"
        = sweepMemoryMgr.GetSession "new") ∧
    ("new" ≠ "old" ∧
      (sweepRedisMgr.CreateSession 1700000020 "old").2.GetSession "new"
        = sweepRedisMgr.GetSession "new") :=
  ⟨⟨by decide,
    ((@C4_createSession GoValue).1 sweepMemoryMgr 1700000020 "old").2.2.2.2.2 "new"
      (by decide)⟩,
   ⟨by decide,
    ((@C4_createSession GoValue).2 sweepRedisMgr 1700000020 "old").2.2.2.2.2 "new"
      (by decide)⟩⟩

/-! ## The expiration sweep -/

/-- C5 as stated fails. With the expiration time E = 9223372036854775807 (what Init stores
for that option), the sum lastUpdateTime + E wraps around in int64, and the cycle of the memory
manager run at now = 1700000000 removes the session "s1" whose lastUpdateTime is now, although
lastUpdateTime + E is not less than now and now is earlier than now + E. And the cycle of the
redis manager takes one connection for each expired session: on the pool of one connection the
cycle over two expired sessions blocks for ever at the second one, and on a nil pool it
panics, so the expired sessions are not removed. -/
theorem C5_counterexample :
    ((Init none SESSION_MEMORY "" [.int 9223372036854775807] :
          Except Panic (sessionMgr GoValue))
        = .ok (.memory { sessionMap := [], expire := 9223372036854775807 }) ∧
      overflowMgr.expire = 9223372036854775807 ∧
      (overflowMgr.GetSession "s1").1.map (fun s => s.lastUpdateTime) = some 1700000000 ∧
      ¬ ((1700000000 : Int) + overflowMgr.expire < 1700000000) ∧
      (1700000000 : Int) < 1700000000 + overflowMgr.expire ∧
      (overflowMgr.TimeOutSessionBody 1700000000).GetSession "s1"
        = (none, some "session is not create")) ∧
    ((∀ e ∈ twoExpiredMgr.sessionMap,
          e.2.lastUpdateTime + twoExpiredMgr.expire < 1700000000) ∧
      twoExpiredMgr.TimeOutSessionBody emptyRedis 1700000000 = .blocks) ∧
    ((∀ e ∈ noPoolMgr.sessionMap, e.2.lastUpdateTime + noPoolMgr.expire < 1700000001) ∧
      noPoolMgr.TimeOutSessionBody emptyRedis 1700000001 = .panics .nilDereference) := by
  refine ⟨⟨rfl, by decide, by decide, by decide, by decide, rfl⟩, ⟨by decide, rfl⟩,
    ⟨by decide, rfl⟩⟩

/-- C5, amended: for a manager with expiration time E whose sessions are registered under
their own id and for which lastUpdateTime + E of every session lies in the int64 range, and
for the redis manager when moreover its sessions share a pool that is not nil and has a
connection to hand out for every expired session (MaxActive is not positive, or the
connections already out plus the expired sessions do not exceed MaxActive), one sweep cycle
run at clock value now returns and removes exactly the sessions with lastUpdateTime + E < now,
keeping every other session as it is; so a session with lastUpdateTime = now - E - 1 is
removed by that cycle, and a session is kept by every cycle run at a time earlier than its
lastUpdateTime + E (by every sequence of such cycles for the memory manager, and for the
redis manager on a pool without limit). -/
theorem C5_sweep_cycle {V W : Type} :
    (∀ (m : memorySessionMgr V) (now : Int),
      (∀ e ∈ m.sessionMap, e.2.sessionId = e.1) →
      (∀ e ∈ m.sessionMap, -(2 ^ 63) ≤ e.2.lastUpdateTime + m.expire ∧
        e.2.lastUpdateTime + m.expire < 2 ^ 63) →
      (∀ id s, mapLookup m.sessionMap id = some s → s.lastUpdateTime + m.expire < now →
        mapLookup (m.TimeOutSessionBody now).sessionMap id = none) ∧
      (∀ id s, mapLookup m.sessionMap id = some s → ¬ s.lastUpdateTime + m.expire < now →
        mapLookup (m.TimeOutSessionBody now).sessionMap id = some s) ∧
      (∀ id, mapLookup m.sessionMap id = none →
        mapLookup (m.TimeOutSessionBody now).sessionMap id = none) ∧
      (∀ id s, mapLookup m.sessionMap id = some s → s.lastUpdateTime = now - m.expire - 1 →
        (m.TimeOutSessionBody now).GetSession id = (none, some "session is not create")) ∧
      (∀ id s (clocks : List Int), mapLookup m.sessionMap id = some s →
        (∀ t ∈ clocks, t < s.lastUpdateTime + m.expire) →
        (memorySessionMgr.TimeOutSession clocks m).GetSession id = (some s, none))) ∧
    (∀ (r : redisSessionMgr V) (rd : Redis W) (now : Int) (p : Pool),
      (∀ e ∈ r.sessionMap, e.2.sessionId = e.1 ∧ e.2.pool = some p) →
      (∀ e ∈ r.sessionMap, -(2 ^ 63) ≤ e.2.lastUpdateTime + r.expire ∧
        e.2.lastUpdateTime + r.expire < 2 ^ 63) →
      (p.maxActive ≤ 0 ∨
        (rd.active : Int) + (r.expiredCount now (mapKeys r.sessionMap) : Nat)
          ≤ p.maxActive) →
      ∃ (r1 : redisSessionMgr V) (rd1 : Redis W),
        r.TimeOutSessionBody rd now = .returns (r1, rd1) ∧
        (∀ id s, mapLookup r.sessionMap id = some s → s.lastUpdateTime + r.expire < now →
          mapLookup r1.sessionMap id = none) ∧
        (∀ id s, mapLookup r.sessionMap id = some s → ¬ s.lastUpdateTime + r.expire < now →
          mapLookup r1.sessionMap id = some s) ∧
        (∀ id, mapLookup r.sessionMap id = none → mapLookup r1.sessionMap id = none) ∧
        (∀ id s, mapLookup r.sessionMap id = some s →
          s.lastUpdateTime = now - r.expire - 1 →
          r1.GetSession id = (none, some "session is not create"))) ∧
    (∀ (r : redisSessionMgr V) (rd : Redis W) (p : Pool) (id : String)
        (s : redisSession V) (clocks : List Int),
      (∀ e ∈ r.sessionMap, e.2.sessionId = e.1 ∧ e.2.pool = some p) →
      (∀ e ∈ r.sessionMap, -(2 ^ 63) ≤ e.2.lastUpdateTime + r.expire ∧
        e.2.lastUpdateTime + r.expire < 2 ^ 63) →
      p.maxActive ≤ 0 →
      mapLookup r.sessionMap id = some s →
      (∀ t ∈ clocks, t < s.lastUpdateTime + r.expire) →
      ∃ (r1 : redisSessionMgr V) (rd1 : Redis W),
        redisSessionMgr.TimeOutSession clocks r rd = .returns (r1, rd1) ∧
        r1.GetSession id = (some s, none)) := by
  refine ⟨?_, ?_, ?_⟩
  · intro m now hkey hrange
    have hkey2 : ∀ k s, mapLookup m.sessionMap k = some s → s.sessionId = k :=
      fun k s h => hkey (k, s) (mapLookup_mem _ _ _ h)
    have hwrap : ∀ k s, mapLookup m.sessionMap k = some s →
        toInt64 (s.lastUpdateTime + m.expire) = s.lastUpdateTime + m.expire :=
      fun k s h => toInt64_of_inRange _ (hrange (k, s) (mapLookup_mem _ _ _ h)).1
        (hrange (k, s) (mapLookup_mem _ _ _ h)).2
    have hspec := (memory_TimeOutSessionBody_spec m now hkey2).2
    have hgone : ∀ id s, mapLookup m.sessionMap id = some s →
        s.lastUpdateTime + m.expire < now →
        mapLookup (m.TimeOutSessionBody now).sessionMap id = none := by
      intro id s h hlt
      rw [hspec id, h]
      simp [hwrap id s h, hlt]
    refine ⟨hgone, ?_, ?_, ?_, ?_⟩
    · intro id s h hge
      rw [hspec id, h]
      simp [hwrap id s h, hge]
    · intro id h
      rw [hspec id, h]
      rfl
    · intro id s h hlu
      have hlt : s.lastUpdateTime + m.expire < now := by omega
      simp [memorySessionMgr.GetSession, hgone id s h hlt]
    · intro id s clocks h hc
      simp [memorySessionMgr.GetSession,
        memory_TimeOutSession_keeps id s clocks m hkey2 h (hwrap id s h) hc]
  · intro r rd now p hkey hrange hcap
    have hinv : ∀ k s, mapLookup r.sessionMap k = some s →
        s.sessionId = k ∧ s.pool = some p :=
      fun k s h => hkey (k, s) (mapLookup_mem _ _ _ h)
    have hwrap : ∀ k s, mapLookup r.sessionMap k = some s →
        toInt64 (s.lastUpdateTime + r.expire) = s.lastUpdateTime + r.expire :=
      fun k s h => toInt64_of_inRange _ (hrange (k, s) (mapLookup_mem _ _ _ h)).1
        (hrange (k, s) (mapLookup_mem _ _ _ h)).2
    obtain ⟨r1, rd1, hret, _, hspec⟩ := redis_TimeOutSessionBody_spec r rd now p hinv hcap
    have hgone : ∀ id s, mapLookup r.sessionMap id = some s →
        s.lastUpdateTime + r.expire < now → mapLookup r1.sessionMap id = none := by
      intro id s h hlt
      rw [hspec id, h]
      simp [hwrap id s h, hlt]
    refine ⟨r1, rd1, hret, hgone, ?_, ?_, ?_⟩
    · intro id s h hge
      rw [hspec id, h]
      simp [hwrap id s h, hge]
    · intro id h
      rw [hspec id, h]
      rfl
    · intro id s h hlu
      have hlt : s.lastUpdateTime + r.expire < now := by omega
      simp [redisSessionMgr.GetSession, hgone id s h hlt]
  · intro r rd p id s clocks hkey hrange hp h hc
    have hinv : ∀ k s, mapLookup r.sessionMap k = some s →
        s.sessionId = k ∧ s.pool = some p :=
      fun k s h => hkey (k, s) (mapLookup_mem _ _ _ h)
    have hwrap : toInt64 (s.lastUpdateTime + r.expire) = s.lastUpdateTime + r.expire :=
      toInt64_of_inRange _ (hrange (id, s) (mapLookup_mem _ _ _ h)).1
        (hrange (id, s) (mapLookup_mem _ _ _ h)).2
    obtain ⟨r1, rd1, hret, hl⟩ :=
      redis_TimeOutSession_keeps id s p hp clocks r rd hinv h hwrap hc
    exact ⟨r1, rd1, hret, by simp [redisSessionMgr.GetSession, hl]⟩

/-- Witness of C5: with E = 10 and now = 1700000000, the session last updated at
now - E - 1 is removed and the session last updated at now is kept, in both managers. -/
theorem C5_sweep_cycle_witness :
    ((∀ e ∈ sweepMemoryMgr.sessionMap, e.2.sessionId = e.1) ∧
      (∀ e ∈ sweepMemoryMgr.sessionMap, -(2 ^ 63) ≤ e.2.lastUpdateTime + sweepMemoryMgr.expire ∧
        e.2.lastUpdateTime + sweepMemoryMgr.expire < 2 ^ 63) ∧
      mapLookup (sweepMemoryMgr.TimeOutSessionBody 1700000000).sessionMap "old" = none ∧
      mapLookup (sweepMemoryMgr.TimeOutSessionBody 1700000000).sessionMap "new"
        = some { sessionId := "new", attributes := [], lastUpdateTime := 1700000000 }) ∧
    ((∀ e ∈ sweepRedisMgr.sessionMap, e.2.sessionId = e.1 ∧ e.2.pool = some examplePool) ∧
      (∀ e ∈ sweepRedisMgr.sessionMap, -(2 ^ 63) ≤ e.2.lastUpdateTime + sweepRedisMgr.expire ∧
        e.2.lastUpdateTime + sweepRedisMgr.expire < 2 ^ 63) ∧
      (examplePool.maxActive ≤ 0 ∨
        (emptyRedis.active : Int) +
            (sweepRedisMgr.expiredCount 1700000000 (mapKeys sweepRedisMgr.sessionMap) : Nat)
          ≤ examplePool.maxActive) ∧
      ∃ r1 rd1, sweepRedisMgr.TimeOutSessionBody emptyRedis 1700000000 = .returns (r1, rd1) ∧
        mapLookup r1.sessionMap "old" = none ∧
        mapLookup r1.sessionMap "new"
          = some { sessionId := "new", attributes := [], pool := some examplePool,
                   lastUpdateTime := 1700000000 }) :=
  ⟨⟨by decide, by decide,
    ((@C5_sweep_cycle GoValue (GoMap Json)).1 sweepMemoryMgr 1700000000 (by decide)
      (by decide)).1 "old"
      { sessionId := "old", attributes := [], lastUpdateTime := 1699999989 } rfl (by decide),
    ((@C5_sweep_cycle GoValue (GoMap Json)).1 sweepMemoryMgr 1700000000 (by decide)
      (by decide)).2.1 "new"
      { sessionId := "new", attributes := [], lastUpdateTime := 1700000000 } rfl
      (by decide)⟩,
   ⟨by decide, by decide, by decide,
    match (@C5_sweep_cycle GoValue (GoMap Json)).2.1 sweepRedisMgr emptyRedis 1700000000
      examplePool (by decide) (by decide) (by decide) with
    | ⟨r1, rd1, hret, hgone, hkeep, _, _⟩ =>
      ⟨r1, rd1, hret,
       hgone "old" { sessionId := "old", attributes := [], pool := some examplePool,
                     lastUpdateTime := 1699999989 } rfl (by decide),
       hkeep "new" { sessionId := "new", attributes := [], pool := some examplePool,
                     lastUpdateTime := 1700000000 } rfl (by decide)⟩⟩⟩

/-! ## ReSetLastUpdateTime and Init -/

/-- C6: the code of the redis manager does not do what the claim says. For an id created by
the redis CreateSession, ReSetLastUpdateTime panics on its type assertion (the entry is a
redisSession, the assertion asks for a memorySession), in every manager state; the same call
on the memory manager completes and sets the lastUpdateTime of that session to the current
time; for an absent id (here: one whose entry has been deleted) the redis call is a no-op. -/
theorem C6_redis_reset_panics {V : Type} :
    (∀ (r : redisSessionMgr V) (now now2 : Int) (id : String),
      (r.CreateSession now id).2.ReSetLastUpdateTime now2 id
        = .error (.interfaceConversion "*session.redisSession" "*session.memorySession")) ∧
    (∀ (r : redisSessionMgr V) (now2 : Int) (id : String),
      ({ r with sessionMap := mapDelete r.sessionMap id } :
          redisSessionMgr V).ReSetLastUpdateTime now2 id
        = .ok { r with sessionMap := mapDelete r.sessionMap id }) ∧
    (∀ (m : memorySessionMgr V) (now now2 : Int) (id : String),
      ∃ m1, (m.CreateSession now id).2.ReSetLastUpdateTime now2 id = .ok m1 ∧
        m1.GetSession id
          = (some { sessionId := id, attributes := [], lastUpdateTime := now2 }, none)) := by
  refine ⟨?_, ?_, ?_⟩
  · intro r now now2 id
    simp [redisSessionMgr.ReSetLastUpdateTime, redisSessionMgr.CreateSession,
      mapLookup_assign_same, session.asMemorySession]
  · intro r now2 id
    simp [redisSessionMgr.ReSetLastUpdateTime, mapLookup_delete_same]
  · intro m now now2 id
    refine ⟨{ (m.CreateSession now id).2 with
        sessionMap := mapAssign (m.CreateSession now id).2.sessionMap id
          { sessionId := id, attributes := [], lastUpdateTime := now2 } }, ?_, ?_⟩
    · simp [memorySessionMgr.ReSetLastUpdateTime, memorySessionMgr.CreateSession,
        mapLookup_assign_same, session.asMemorySession, NewMemorySession]
    · simp [memorySessionMgr.GetSession, mapLookup_assign_same]

/-- C10 as stated fails: Init for the memory backend with an empty option list (the required
expireSeconds missing) does not panic; it completes and leaves the expiration time at 0. -/
theorem C10_counterexample :
    (Init none SESSION_MEMORY "" [] : Except Panic (sessionMgr GoValue))
      = .ok (.memory { sessionMap := [], expire := 0 }) := by
  rfl

/-- C10, amended: Init for the memory backend completes with expire = 0 on an empty option
list, completes with expire equal to the first option when that option is an int (further
options are not read), and panics when the first option is of another type. Init for the
redis backend panics when fewer than five options are given or when one of the options 0, 2,
3, 4 is not an int (option 1 is not read), and completes with expire equal to option 0 and the
pool built from the address and the options 2, 3, 4 when these four are ints. -/
theorem C10_init {V : Type} (ss : Option (sessionMgr V)) (addr : String)
    (options : List GoValue) :
    (options = [] →
      Init ss SESSION_MEMORY addr options = .ok (.memory { sessionMap := [], expire := 0 })) ∧
    (∀ (n : Int) (rest : List GoValue), options = .int n :: rest →
      Init ss SESSION_MEMORY addr options = .ok (.memory { sessionMap := [], expire := n })) ∧
    (∀ (o : GoValue) (rest : List GoValue), options = o :: rest → (∀ n, o ≠ .int n) →
      Init ss SESSION_MEMORY addr options
        = .error (.interfaceConversion o.typeName "int")) ∧
    (options.length < 5 → ∃ p, Init ss SESSION_REDIS addr options = .error p) ∧
    (∀ (i : Nat) (o : GoValue), i ∈ [0, 2, 3, 4] → options.get? i = some o →
      (∀ n, o ≠ .int n) → ∃ p, Init ss SESSION_REDIS addr options = .error p) ∧
    (∀ (n0 n2 n3 n4 : Int) (o1 : GoValue) (rest : List GoValue),
      options = .int n0 :: o1 :: .int n2 :: .int n3 :: .int n4 :: rest →
      Init ss SESSION_REDIS addr options
        = .ok (.redis { sessionMap := [], expire := n0,
                        pool := some ⟨addr, n2, n3, n4⟩ })) := by
  refine ⟨?_, ?_, ?_, ?_, ?_, ?_⟩
  · intro h
    subst h
    simp [Init, SESSION_MEMORY, memorySessionMgr.Init, NewmemorySessionMgr]
  · intro n rest h
    subst h
    simp [Init, SESSION_MEMORY, memorySessionMgr.Init, NewmemorySessionMgr, optionAt,
      assertInt]
  · intro o rest h hne
    subst h
    cases o with
    | int n => exact absurd rfl (hne n)
    | _ =>
      simp [Init, SESSION_MEMORY, memorySessionMgr.Init, NewmemorySessionMgr, optionAt,
        assertInt]
  · intro hlen
    apply redisInit_panics_of_not_ok
    intro r1 hok
    obtain ⟨n0, n2, n3, n4, _, _, _, h4, _⟩ := (redis_Init_ok_iff _ _ _ _).1 hok
    have : options.get? 4 = none := List.get?_eq_none.mpr (by omega)
    rw [this] at h4
    cases h4
  · intro i o hi hget hne
    apply redisInit_panics_of_not_ok
    intro r1 hok
    obtain ⟨n0, n2, n3, n4, h0, h2, h3, h4, _⟩ := (redis_Init_ok_iff _ _ _ _).1 hok
    simp only [List.mem_cons, List.mem_singleton, List.not_mem_nil, or_false] at hi
    rcases hi with rfl | rfl | rfl | rfl
    · rw [hget] at h0
      exact hne n0 (Option.some.inj h0)
    · rw [hget] at h2
      exact hne n2 (Option.some.inj h2)
    · rw [hget] at h3
      exact hne n3 (Option.some.inj h3)
    · rw [hget] at h4
      exact hne n4 (Option.some.inj h4)
  · intro n0 n2 n3 n4 o1 rest h
    subst h
    simp [Init, SESSION_MEMORY, SESSION_REDIS, redisSessionMgr.Init, NewRedisSessionMgr,
      optionAt, assertInt, Except.bind]

/-- Witness of C10: the options of the demonstration program for the redis backend, a single
int for the memory backend, a string in its place, and too few options for redis. -/
theorem C10_init_witness :
    (Init none SESSION_REDIS "127.0.0.1:6379" [.int 10, .str "", .int 0, .int 50, .int 15] :
        Except Panic (sessionMgr GoValue))
      = .ok (.redis { sessionMap := [], expire := 10, pool := some examplePool }) ∧
    (Init none SESSION_MEMORY "" [.int 1] : Except Panic (sessionMgr GoValue))
      = .ok (.memory { sessionMap := [], expire := 1 }) ∧
    (Init none SESSION_MEMORY "" [.str "1"] : Except Panic (sessionMgr GoValue))
      = .error (.interfaceConversion "string" "int") ∧
    (∃ p, (Init none SESSION_REDIS "127.0.0.1:6379" [.int 10] :
        Except Panic (sessionMgr GoValue)) = .error p) :=
  ⟨(C10_init none "127.0.0.1:6379" [.int 10, .str "", .int 0, .int 50, .int 15]).2.2.2.2.2
      10 0 50 15 (.str "") [] rfl,
   (C10_init none "" [.int 1]).2.1 1 [] rfl,
   (C10_init none "" [.str "1"]).2.2.1 (.str "1") [] rfl (by intro n h; cases h),
   (C10_init none "127.0.0.1:6379" [.int 10]).2.2.2.1 (by decide)⟩

end GoSession
